import Mathlib

/-!
Verification of the breksta capture-to-cache pipeline.

Shallow embedding of the core modules:
  app/database.py   (PmtDb: experiments, readings, start/stop/write/query/delete)
  app/cache_module.py (CacheWebProcess: incremental per-experiment frame cache)
  device/adc_config.py (ADCConfig coercing validation)
  ui/central_controlpanel.py + app/capture_signal.py (timer tick, write-through)

Conventions of the embedding:
  Wall-clock timestamps (datetime values) are integers counting microseconds;
  timedelta.total_seconds() becomes exact division by 1000000 in Rat.
  Reading values are Rat.  datetime.now() is passed in explicitly as a `now`
  argument at each operation.  Python exceptions become Except DbError.
  SQLAlchemy columns declared Mapped[int] and Mapped[float] are NOT NULL, and
  reading.ts is the primary key, so inserting a null experiment id, a null
  value, or a duplicate timestamp raises IntegrityError at commit; this is
  modelled by the integrityError branches of write_reading.  SQLite does not
  enforce the foreign key (no pragma is set), and no ORM relationship or
  cascade is configured on PmtReading, so delete_experiment removes only the
  experiment row.
-/

/-- Equality of Except results is decidable componentwise; used to evaluate
witnesses and counterexamples on concrete states. -/
instance {ε α : Type} [DecidableEq ε] [DecidableEq α] : DecidableEq (Except ε α) := by
  intro a b
  cases a <;> cases b
  case ok.ok x y =>
    exact if h : x = y then .isTrue (by rw [h]) else .isFalse (by simp [h])
  case error.error x y =>
    exact if h : x = y then .isTrue (by rw [h]) else .isFalse (by simp [h])
  case ok.error x y => exact .isFalse (by simp)
  case error.ok x y => exact .isFalse (by simp)

/-- app/database.py, class Experiment: id, name, start, end (nullable), exported. -/
structure Experiment where
  id : Nat
  name : String
  start : Int
  «end» : Option Int
  exported : Bool
deriving DecidableEq, Repr

/-- app/database.py, class PmtReading: experiment (FK, NOT NULL), value (NOT NULL),
ts (primary key).  Stored rows therefore always carry an experiment id and value. -/
structure PmtReading where
  experiment : Nat
  value : Rat
  ts : Int
deriving DecidableEq, Repr

/-- Error kinds raised by the store (ValueError / sqlalchemy IntegrityError cases). -/
inductive DbError where
  | alreadyRunning
  | noActiveExperiment
  | notFound
  | integrityError
deriving DecidableEq, Repr

/-- The state of a PmtDb instance together with its backing database:
the experiment table rows (insertion order), the reading table rows
(insertion order), the autoincrement counter, and the in-process
active-experiment reference (self.experiment_id, self.start_time). -/
structure DbState where
  experiments : List Experiment
  readings : List PmtReading
  nextId : Nat
  experiment_id : Option Nat
  start_time : Option Int
deriving DecidableEq, Repr

/-- A fresh PmtDb over an empty database. -/
def DbState.init : DbState := ⟨[], [], 1, none, none⟩

/-- PmtDb.start_experiment: raises (ValueError, modelled alreadyRunning) if
self.experiment_id is not None; otherwise inserts an Experiment row with
start = now, records the assigned id, and returns it. -/
def DbState.start_experiment (db : DbState) (name : String) (now : Int) :
    Except DbError (Nat × DbState) :=
  match db.experiment_id with
  | some _ => .error .alreadyRunning
  | none =>
    let exp : Experiment := ⟨db.nextId, name, now, none, false⟩
    .ok (db.nextId,
      { db with
        experiments := db.experiments ++ [exp]
        nextId := db.nextId + 1
        experiment_id := some db.nextId
        start_time := some now })

/-- PmtDb.stop_experiment: raises (noActiveExperiment) if self.experiment_id is
None; clears start_time, looks the active experiment up by primary key, raises
notFound if absent (start_time already cleared at that point), otherwise sets
its end to now and clears the active reference. -/
def DbState.stop_experiment (db : DbState) (now : Int) : Except DbError DbState :=
  match db.experiment_id with
  | none => .error .noActiveExperiment
  | some i =>
    let db1 := { db with start_time := none }
    match db1.experiments.find? (fun e => e.id == i) with
    | none => .error .notFound
    | some _ =>
      .ok { db1 with
            experiments := db1.experiments.map
              (fun e => if e.id == i then { e with «end» := some now } else e)
            experiment_id := none }

/-- PmtDb.write_reading: no active-experiment check in the source.  It inserts
PmtReading(experiment = self.experiment_id, value = val, ts = now) and commits.
The commit raises IntegrityError when experiment is null (NOT NULL column, the
case self.experiment_id is None), when the value is null, or when ts collides
with an existing primary key.  Otherwise the row is appended. -/
def DbState.write_reading (db : DbState) (val : Option Rat) (now : Int) :
    Except DbError DbState :=
  match db.experiment_id, val with
  | none, _ => .error .integrityError
  | some _, none => .error .integrityError
  | some i, some v =>
    if db.readings.any (fun r => r.ts == now) then .error .integrityError
    else .ok { db with readings := db.readings ++ [⟨i, v, now⟩] }

/-- Python datetime filter `ts > since` with an optional bound (both query
branches of latest_readings). -/
def matchesSince (since : Option Int) (t : Int) : Bool :=
  match since with
  | none => true
  | some s => s < t

/-- (ts - start).total_seconds() on microsecond-integer datetimes: exact
division by 1000000 in Rat. -/
def relSeconds (ts start : Int) : Rat :=
  ((ts - start : Int) : Rat) / 1000000

/-- A cached or returned data frame with columns (ts, value): ts already
relative to the experiment start, in seconds. -/
abbrev Frame := List (Rat × Rat)

/-- PmtDb.latest_readings: None when the experiment id is absent; otherwise the
readings of that experiment (optionally restricted to ts > since), None when
that selection is empty, else a frame whose ts column is
(ts - expt.start).total_seconds(). -/
def DbState.latest_readings (db : DbState) (experiment_id : Nat) (since : Option Int) :
    Option Frame :=
  match db.experiments.find? (fun e => e.id == experiment_id) with
  | none => none
  | some expt =>
    if (db.readings.filter
        (fun r => r.experiment == experiment_id && matchesSince since r.ts)).isEmpty
    then none
    else some ((db.readings.filter
        (fun r => r.experiment == experiment_id && matchesSince since r.ts)).map
      (fun r => (relSeconds r.ts expt.start, r.value)))

/-- PmtDb.delete_experiment: when the id is absent it only logs and returns
(no exception); when present it deletes that experiment row.  No relationship
cascade and no enforced foreign key: the readings rows are left in place. -/
def DbState.delete_experiment (db : DbState) (experiment_id : Nat) :
    Except DbError DbState :=
  match db.experiments.find? (fun e => e.id == experiment_id) with
  | none => .ok db
  | some _ =>
    .ok { db with experiments := db.experiments.eraseP (fun e => e.id == experiment_id) }

/-- PmtDb.get_experiments: one (id, name, start, end, exported) tuple per row. -/
def DbState.get_experiments (db : DbState) :
    List (Nat × String × Int × Option Int × Bool) :=
  db.experiments.map (fun e => (e.id, e.name, e.start, e.«end», e.exported))

/-- The loop of periodic write_reading calls during one experiment: each element
of writes is one (now, value) tick.  The first failing insert raises; state
threads through the successful ones. -/
def writeAll (db : DbState) (writes : List (Int × Rat)) : Except DbError DbState :=
  match writes with
  | [] => .ok db
  | w :: rest =>
    match db.write_reading (some w.2) w.1 with
    | .ok db2 => writeAll db2 rest
    | .error e => .error e

/-!  app/cache_module.py: CacheWebProcess.  cached_data is a dict keyed by
experiment id; modelled as an association list in insertion order. -/

/-- dict.get(experiment_id) on the cached_data dict. -/
def lookupFrame (l : List (Nat × Frame)) (experiment_id : Nat) : Option Frame :=
  match l.find? (fun p => p.1 == experiment_id) with
  | none => none
  | some p => some p.2

/-- dict[experiment_id] = f on the cached_data dict. -/
def setFrame (l : List (Nat × Frame)) (experiment_id : Nat) (f : Frame) :
    List (Nat × Frame) :=
  match l with
  | [] => [(experiment_id, f)]
  | p :: rest =>
    if p.1 == experiment_id then (experiment_id, f) :: rest
    else p :: setFrame rest experiment_id f

/-- The mutable state of a CacheWebProcess instance. -/
structure CacheState where
  cached_data : List (Nat × Frame)
  last_datetime : Option Int
  current_datetime : Option Int
deriving DecidableEq, Repr

/-- A fresh CacheWebProcess. -/
def CacheState.init : CacheState := ⟨[], none, none⟩

/-- CacheWebProcess.initialize_empty_cache: a frame with columns ts, value and
no rows. -/
def empty_cache : Frame := []

/-- CacheWebProcess.get_cached_data: the cached frame, or an empty frame when
the id was never cached. -/
def CacheState.get_cached_data (s : CacheState) (experiment_id : Nat) : Frame :=
  (lookupFrame s.cached_data experiment_id).getD empty_cache

/-- CacheWebProcess.update_cache: ensure a (possibly empty) entry exists for the
id, fetch latest_readings(experiment_id, since = last_timestamp) through
fetch_latest_data, leave the entry as is when the fetch is None, otherwise
append (pd.concat) the fetched rows onto the entry. -/
def CacheState.update_cache (s : CacheState) (db : DbState) (experiment_id : Nat)
    (last_timestamp : Option Int) : CacheState :=
  let cd :=
    if (lookupFrame s.cached_data experiment_id).isNone then
      setFrame s.cached_data experiment_id empty_cache
    else s.cached_data
  match db.latest_readings experiment_id last_timestamp with
  | none => { s with cached_data := cd }
  | some new_data =>
    { s with cached_data :=
        setFrame cd experiment_id (((lookupFrame cd experiment_id).getD empty_cache) ++ new_data) }

/-- CacheWebProcess.save_datetime: roll current_datetime into last_datetime and
stamp current_datetime = now. -/
def CacheState.save_datetime (s : CacheState) (now : Int) : CacheState :=
  { s with last_datetime := s.current_datetime, current_datetime := some now }

/-- CacheWebProcess.handle_data_update: save_datetime, then update_cache with
the rolled-over last_datetime as the since bound. -/
def CacheState.handle_data_update (s : CacheState) (db : DbState) (experiment_id : Nat)
    (now : Int) : CacheState :=
  let s1 := s.save_datetime now
  s1.update_cache db experiment_id s1.last_datetime

/-- CacheWebProcess.handle_completed_experiment: one unconditional update_cache
with no since bound. -/
def CacheState.handle_completed_experiment (s : CacheState) (db : DbState)
    (experiment_id : Nat) : CacheState :=
  s.update_cache db experiment_id none

/-- CacheWebProcess.clear_cache: the body only builds a fresh empty frame and
returns it; self.cached_data is never touched (the method is a TODO stub). -/
def CacheState.clear_cache (s : CacheState) (_key : Nat) : Frame × CacheState :=
  (empty_cache, s)

/-!  ui/central_controlpanel.py (CentralizedControlManager) and
app/capture_signal.py (DeviceCapture): one sampling tick. -/

/-- The controller-side state that decides whether ticks happen: whether the
sampling QTimer is running with on_timeout connected. -/
structure ManagerState where
  timerActive : Bool
deriving DecidableEq, Repr

/-- CentralizedControlManager.start_reading: connects on_timeout and starts the
timer only when the reader is operational; otherwise does nothing. -/
def ManagerState.start_reading (m : ManagerState) (operational : Bool) : ManagerState :=
  if operational then { timerActive := true } else m

/-- One firing of the sampling timer: on_timeout reads the device
(run_adc, giving some value or none when the reader is not operational) and
emits the result unconditionally; DeviceCapture.write_to_database forwards it
to PmtDb.write_reading, logging and re-raising on failure; the exception is
absorbed by the Qt event loop, so the database is unchanged on failure and the
timer is never stopped by a tick. -/
def tick (m : ManagerState) (db : DbState) (result : Option Rat) (now : Int) :
    ManagerState × DbState :=
  if m.timerActive then
    match db.write_reading result now with
    | .ok db2 => (m, db2)
    | .error _ => (m, db)
  else (m, db)

/-!  device/adc_config.py: configuration enums and coercing validation. -/

/-- ADS1115Address.is_valid over the four enumerated addresses
(GND 0x48, VDD 0x49, SDA 0x4A, SCL 0x4B). -/
def ADS1115Address.is_valid (address : Int) : Bool :=
  address == 0x48 || address == 0x49 || address == 0x4A || address == 0x4B

/-- ADS1115Gain.is_valid over the six enumerated gains. -/
def ADS1115Gain.is_valid (gain : Int) : Bool :=
  gain == 0 || gain == 1 || gain == 2 || gain == 4 || gain == 8 || gain == 16

/-- ADS1115DataRate.is_valid over the eight enumerated data rates. -/
def ADS1115DataRate.is_valid (data_rate : Int) : Bool :=
  data_rate == 0 || data_rate == 1 || data_rate == 2 || data_rate == 3 ||
  data_rate == 4 || data_rate == 5 || data_rate == 6 || data_rate == 7

/-- enum ADS1115Mode: poll_mode_single = 1, poll_mode_continuous = 0. -/
inductive ADS1115Mode where
  | poll_mode_single
  | poll_mode_continuous
deriving DecidableEq, Repr

/-- The ADS1115Mode(value) enum constructor: succeeds exactly on the two member
values, raising ValueError (none) otherwise. -/
def ADS1115Mode.ofValue (x : Int) : Option ADS1115Mode :=
  if x == 1 then some .poll_mode_single
  else if x == 0 then some .poll_mode_continuous
  else none

/-- The dataclass ADCConfig after __post_init__ ran. -/
structure ADCConfig where
  i2c_bus : Int
  address : Int
  gain : Int
  data_rate : Int
  poll_mode : ADS1115Mode
deriving DecidableEq, Repr

/-- ADCConfig construction followed by __post_init__: each invalid field is
replaced by its documented default (gain PGA_6_144V = 0, address GND = 0x48,
data rate DR_ADS111X_128 = 4, poll mode single-shot); i2c_bus is not checked.
Construction is total: it never raises. -/
def ADCConfig.make (i2c_bus address gain data_rate poll_mode : Int) : ADCConfig :=
  { i2c_bus := i2c_bus
    address := if ADS1115Address.is_valid address then address else 0x48
    gain := if ADS1115Gain.is_valid gain then gain else 0
    data_rate := if ADS1115DataRate.is_valid data_rate then data_rate else 4
    poll_mode := (ADS1115Mode.ofValue poll_mode).getD .poll_mode_single }

/-!  Claim C2 machinery: sequences of start_experiment / stop_experiment calls
against one PmtDb instance, with errors propagating to the caller (a raising
call leaves the database as the method left it: start mutates nothing before
raising; stop clears start_time before discovering a missing row). -/

/-- One lifecycle call: start_experiment(name) at time now, or stop_experiment
at time now. -/
inductive SSOp where
  | start (name : String) (now : Int)
  | stop (now : Int)

/-- Execute one call, keeping the post-exception state on failure. -/
def runSS (db : DbState) : SSOp → DbState
  | .start name now =>
    match db.start_experiment name now with
    | .ok p => p.2
    | .error _ => db
  | .stop now =>
    match db.stop_experiment now with
    | .ok db2 => db2
    | .error _ =>
      match db.experiment_id with
      | none => db
      | some _ => { db with start_time := none }

/-- Execute a call sequence from a given state. -/
def runSSList (db : DbState) (ops : List SSOp) : DbState :=
  ops.foldl runSS db

/-- The experiment rows still running (end is null). -/
def openExps (db : DbState) : List Experiment :=
  db.experiments.filter (fun e => e.«end».isNone)

/-- The lifecycle invariant: with no active reference no row is open, and with
an active reference at most one row is open and every open row carries the
active id. -/
def InvDb (db : DbState) : Prop :=
  (db.experiment_id = none → openExps db = []) ∧
  (∀ i, db.experiment_id = some i →
    (openExps db).length ≤ 1 ∧ ∀ e ∈ openExps db, e.id = i)


/-!  Helper lemmas shared by the claim theorems. -/

theorem lookup_set_self (l : List (Nat × Frame)) (experiment_id : Nat) (f : Frame) :
    lookupFrame (setFrame l experiment_id f) experiment_id = some f := by
  induction l with
  | nil => simp [setFrame, lookupFrame, List.find?]
  | cons p rest ih =>
    by_cases hp : p.1 = experiment_id
    · simp [setFrame, hp, lookupFrame, List.find?]
    · simpa [setFrame, hp, lookupFrame, List.find?] using ih

theorem write_reading_ok_of (db : DbState) (i : Nat) (v : Rat) (now : Int)
    (hi : db.experiment_id = some i) (hfresh : ∀ r ∈ db.readings, r.ts ≠ now) :
    db.write_reading (some v) now = .ok { db with readings := db.readings ++ [⟨i, v, now⟩] } := by
  have hany : db.readings.any (fun r => r.ts == now) = false := by
    simp only [List.any_eq_false, beq_iff_eq]
    exact hfresh
  simp [DbState.write_reading, hi, hany]

theorem write_reading_val_none (db : DbState) (now : Int) :
    db.write_reading none now = .error .integrityError := by
  cases h : db.experiment_id <;> simp [DbState.write_reading, h]

theorem latest_readings_some_ne_nil (db : DbState) (experiment_id : Nat)
    (since : Option Int) (F : Frame)
    (h : db.latest_readings experiment_id since = some F) : F ≠ [] := by
  unfold DbState.latest_readings at h
  split at h
  · exact absurd h (by simp)
  · split at h
    · exact absurd h (by simp)
    · next hne =>
      intro hF
      rw [hF] at h
      have hnil := List.eq_nil_of_map_eq_nil (Option.some.inj h)
      rw [hnil] at hne
      simp at hne

/-- Claim C3 counterexample: with no active experiment, write_reading does not
fail with NoActiveExperiment; the commit fails with IntegrityError (NOT NULL on
reading.experiment), exercised here on a database holding one stopped
experiment. -/
theorem write_reading_counterexample :
    (DbState.write_reading ⟨[⟨1, "a", 0, some 10, false⟩], [], 2, none, none⟩ (some 5) 100)
      = .error .integrityError ∧
    (DbState.write_reading ⟨[⟨1, "a", 0, some 10, false⟩], [], 2, none, none⟩ (some 5) 100)
      ≠ .error .noActiveExperiment := by decide

/-- Claim C3 (amended): write_reading performs no active-experiment check.
When no experiment is active the insert fails with IntegrityError (the NOT NULL
constraint on reading.experiment), so no unowned reading is ever stored; when
an experiment is active and the timestamp is fresh, it appends a reading for
that experiment with ts = now. -/
theorem write_reading_amended (db : DbState) (val : Option Rat) (now : Int) :
    (db.experiment_id = none → db.write_reading val now = .error .integrityError) ∧
    (∀ i v, db.experiment_id = some i → val = some v →
      (∀ r ∈ db.readings, r.ts ≠ now) →
      db.write_reading val now = .ok { db with readings := db.readings ++ [⟨i, v, now⟩] }) := by
  constructor
  · intro h
    cases val <;> simp [DbState.write_reading, h]
  · intro i v hi hv hfresh
    rw [hv]
    exact write_reading_ok_of db i v now hi hfresh

/-- Claim C3 witness: both amended branches evaluated on concrete states. -/
theorem write_reading_amended_witness :
    (DbState.write_reading ⟨[], [], 1, none, none⟩ (some 3) 7 = .error .integrityError) ∧
    (DbState.write_reading ⟨[⟨1, "a", 0, none, false⟩], [], 2, some 1, some 0⟩ (some 5) 100
      = .ok ⟨[⟨1, "a", 0, none, false⟩], [⟨1, 5, 100⟩], 2, some 1, some 0⟩) :=
  ⟨(write_reading_amended ⟨[], [], 1, none, none⟩ (some 3) 7).1 rfl,
   (write_reading_amended ⟨[⟨1, "a", 0, none, false⟩], [], 2, some 1, some 0⟩ (some 5) 100).2
      1 5 rfl rfl (by decide)⟩

/-- Claim C4 counterexample: with the timer running and experiment 1 active, a
tick whose device result is None leaves the controller timer active (no
transition to Idle) and a later tick still reaches write_reading and stores a
reading for that experiment. -/
theorem device_unavailable_counterexample :
    (tick ⟨true⟩ ⟨[⟨1, "a", 0, none, false⟩], [], 2, some 1, some 0⟩ none 100).1.timerActive
      = true ∧
    (tick ⟨true⟩ ⟨[⟨1, "a", 0, none, false⟩], [], 2, some 1, some 0⟩ none 100).2
      = ⟨[⟨1, "a", 0, none, false⟩], [], 2, some 1, some 0⟩ ∧
    (tick ⟨true⟩
        (tick ⟨true⟩ ⟨[⟨1, "a", 0, none, false⟩], [], 2, some 1, some 0⟩ none 100).2
        (some 5) 200).2.readings
      = [⟨1, 5, 200⟩] := by decide

/-- Claim C4 (amended): a None device reading during a running experiment does
not stop the controller.  The emitted null value makes write_reading fail with
IntegrityError, absorbed by the event loop: the tick leaves both the timer
state and the database unchanged, and subsequent ticks still invoke
write_reading and store readings for the experiment.  The only fail-safe stop
in the source happens at experiment start, when ADC initialization fails before
the timer is ever started. -/
theorem device_unavailable_amended (m : ManagerState) (db : DbState) (now : Int)
    (h : m.timerActive = true) :
    tick m db none now = (m, db) ∧
    (∀ i v t, db.experiment_id = some i → (∀ r ∈ db.readings, r.ts ≠ t) →
      (tick m db (some v) t).2.readings = db.readings ++ [⟨i, v, t⟩]) := by
  constructor
  · simp [tick, h, write_reading_val_none]
  · intro i v t hi hfresh
    simp [tick, h, write_reading_ok_of db i v t hi hfresh]

/-- Claim C4 witness: the amended statement evaluated with the timer running. -/
theorem device_unavailable_amended_witness :
    tick ⟨true⟩ ⟨[⟨1, "a", 0, none, false⟩], [], 2, some 1, some 0⟩ none 100
      = (⟨true⟩, ⟨[⟨1, "a", 0, none, false⟩], [], 2, some 1, some 0⟩) ∧
    (tick ⟨true⟩ ⟨[⟨1, "a", 0, none, false⟩], [], 2, some 1, some 0⟩ (some 5) 200).2.readings
      = [⟨1, 5, 200⟩] :=
  ⟨(device_unavailable_amended ⟨true⟩ ⟨[⟨1, "a", 0, none, false⟩], [], 2, some 1, some 0⟩
      100 rfl).1,
   (device_unavailable_amended ⟨true⟩ ⟨[⟨1, "a", 0, none, false⟩], [], 2, some 1, some 0⟩
      100 rfl).2 1 5 200 rfl (by decide)⟩

/-- Claim C5: every reading of an existing experiment that passes the since
filter appears in the latest_readings result with relative timestamp exactly
(ts - start).total_seconds(), computed as exact division of the microsecond
difference. -/
theorem relative_timestamp_correct (db : DbState) (experiment_id : Nat)
    (since : Option Int) (e : Experiment) (r : PmtReading)
    (hfind : db.experiments.find? (fun x => x.id == experiment_id) = some e)
    (hr : r ∈ db.readings) (hexp : r.experiment = experiment_id)
    (hsince : matchesSince since r.ts = true) :
    ∃ rows, db.latest_readings experiment_id since = some rows ∧
      (relSeconds r.ts e.start, r.value) ∈ rows := by
  have hmem : r ∈ db.readings.filter
      (fun x => x.experiment == experiment_id && matchesSince since x.ts) := by
    rw [List.mem_filter]
    exact ⟨hr, by simp [hexp, hsince]⟩
  have hne : (db.readings.filter
      (fun x => x.experiment == experiment_id && matchesSince since x.ts)).isEmpty ≠ true := by
    cases hsel : db.readings.filter
        (fun x => x.experiment == experiment_id && matchesSince since x.ts) with
    | nil => rw [hsel] at hmem; exact absurd hmem (by simp)
    | cons a l => simp [hsel]
  refine ⟨(db.readings.filter
      (fun x => x.experiment == experiment_id && matchesSince since x.ts)).map
      (fun x => (relSeconds x.ts e.start, x.value)), ?_, ?_⟩
  · unfold DbState.latest_readings
    simp only [hfind]
    rw [if_neg hne]
  · exact List.mem_map_of_mem _ hmem

/-- Claim C5 witness: a reading at ts 2000000 of an experiment started at 0 is
reported at two seconds. -/
theorem relative_timestamp_correct_witness :
    ∃ rows,
      (DbState.latest_readings ⟨[⟨1, "a", 0, none, false⟩], [⟨1, 5, 2000000⟩], 2, none, none⟩
        1 none) = some rows ∧
      ((2 : Rat), (5 : Rat)) ∈ rows := by
  have h := relative_timestamp_correct
    ⟨[⟨1, "a", 0, none, false⟩], [⟨1, 5, 2000000⟩], 2, none, none⟩ 1 none
    ⟨1, "a", 0, none, false⟩ ⟨1, 5, 2000000⟩ (by decide) (by decide) rfl rfl
  have hval : relSeconds 2000000 0 = (2 : Rat) := by
    norm_num [relSeconds]
  rwa [hval] at h

/-- Claim C6: when the store reports NotFound (no such experiment) or the since
filter selects zero rows, handle_data_update leaves the accumulated frame for
that id unchanged, for every cache state. -/
theorem empty_fetch_preserves_frame (s : CacheState) (db : DbState)
    (experiment_id : Nat) (now : Int)
    (h : db.experiments.find? (fun e => e.id == experiment_id) = none ∨
         db.readings.filter (fun r => r.experiment == experiment_id &&
            matchesSince s.current_datetime r.ts) = []) :
    (s.handle_data_update db experiment_id now).get_cached_data experiment_id
      = s.get_cached_data experiment_id := by
  have hnone : db.latest_readings experiment_id s.current_datetime = none := by
    unfold DbState.latest_readings
    rcases h with h | h
    · rw [h]
    · cases hfind : db.experiments.find? (fun e => e.id == experiment_id) with
      | none => rfl
      | some expt => simp [h]
  show (CacheState.update_cache _ db experiment_id s.current_datetime).get_cached_data
      experiment_id = _
  unfold CacheState.update_cache
  rw [hnone]
  cases hl : lookupFrame s.cached_data experiment_id with
  | none =>
    simp only [CacheState.save_datetime, hl, Option.isNone_none, if_true]
    simp [CacheState.get_cached_data, lookup_set_self, hl, empty_cache]
  | some F =>
    simp [CacheState.save_datetime, CacheState.get_cached_data, hl]

/-- Claim C6 witness: a fetch against a missing experiment leaves a previously
cached frame intact. -/
theorem empty_fetch_preserves_frame_witness :
    (CacheState.handle_data_update ⟨[(1, [(1, 5)])], none, some 50⟩ ⟨[], [], 1, none, none⟩
        1 60).get_cached_data 1
      = CacheState.get_cached_data ⟨[(1, [(1, 5)])], none, some 50⟩ 1 :=
  empty_fetch_preserves_frame ⟨[(1, [(1, 5)])], none, some 50⟩ ⟨[], [], 1, none, none⟩
    1 60 (Or.inl rfl)

/-- Claim C8 (code bug): clear_cache is a stub.  On a cache holding the frame
[(0, 5)] for experiment 1, clear_cache(1) returns a fresh empty frame but
get_cached_data(1) afterwards still returns the old frame, not an empty one,
and every other cached entry is likewise untouched. -/
theorem clear_cache_stub :
    (CacheState.clear_cache ⟨[(1, [(0, 5)])], none, none⟩ 1).1 = empty_cache ∧
    (CacheState.clear_cache ⟨[(1, [(0, 5)])], none, none⟩ 1).2.get_cached_data 1
      = [(0, 5)] ∧
    (CacheState.clear_cache ⟨[(1, [(0, 5)])], none, none⟩ 1).2.get_cached_data 1
      ≠ empty_cache := by decide

/-- Claim C9: ADCConfig construction is total and coercing.  Each of address,
gain and data_rate is kept when inside its enumerated set and replaced by its
documented default otherwise, always landing in the valid set; poll_mode is
resolved through the enum constructor with single-shot as fallback; i2c_bus is
passed through unchecked. -/
theorem adc_config_coercion (i2c_bus address gain data_rate poll_mode : Int) :
    (ADS1115Address.is_valid (ADCConfig.make i2c_bus address gain data_rate poll_mode).address
        = true ∧
      (ADCConfig.make i2c_bus address gain data_rate poll_mode).address
        = if ADS1115Address.is_valid address then address else 0x48) ∧
    (ADS1115Gain.is_valid (ADCConfig.make i2c_bus address gain data_rate poll_mode).gain
        = true ∧
      (ADCConfig.make i2c_bus address gain data_rate poll_mode).gain
        = if ADS1115Gain.is_valid gain then gain else 0) ∧
    (ADS1115DataRate.is_valid (ADCConfig.make i2c_bus address gain data_rate poll_mode).data_rate
        = true ∧
      (ADCConfig.make i2c_bus address gain data_rate poll_mode).data_rate
        = if ADS1115DataRate.is_valid data_rate then data_rate else 4) ∧
    (ADCConfig.make i2c_bus address gain data_rate poll_mode).poll_mode
      = (ADS1115Mode.ofValue poll_mode).getD .poll_mode_single ∧
    (ADCConfig.make i2c_bus address gain data_rate poll_mode).i2c_bus = i2c_bus := by
  refine ⟨⟨?_, rfl⟩, ⟨?_, rfl⟩, ⟨?_, rfl⟩, rfl, rfl⟩
  · show ADS1115Address.is_valid
      (if ADS1115Address.is_valid address then address else 0x48) = true
    cases h : ADS1115Address.is_valid address with
    | true => simp [h]
    | false => simp [h]; decide
  · show ADS1115Gain.is_valid (if ADS1115Gain.is_valid gain then gain else 0) = true
    cases h : ADS1115Gain.is_valid gain with
    | true => simp [h]
    | false => simp [h]; decide
  · show ADS1115DataRate.is_valid
      (if ADS1115DataRate.is_valid data_rate then data_rate else 4) = true
    cases h : ADS1115DataRate.is_valid data_rate with
    | true => simp [h]
    | false => simp [h]; decide

/-- Claim C10: when the cache for an experiment already holds exactly the rows
of a full fetch, handle_completed_experiment appends the same rows again
without deduplication: the resulting frame is the concatenation, so each cached
row doubles its multiplicity. -/
theorem completed_experiment_duplicates (s : CacheState) (db : DbState)
    (experiment_id : Nat) (F : Frame)
    (hfetch : db.latest_readings experiment_id none = some F)
    (hcache : s.get_cached_data experiment_id = F) :
    (s.handle_completed_experiment db experiment_id).get_cached_data experiment_id
      = F ++ F ∧
    ∀ x : Rat × Rat, (F ++ F).count x = 2 * F.count x := by
  constructor
  · have hne : F ≠ [] := latest_readings_some_ne_nil db experiment_id none F hfetch
    cases hl : lookupFrame s.cached_data experiment_id with
    | none =>
      exact absurd (by simpa [CacheState.get_cached_data, hl, empty_cache] using hcache.symm) hne
    | some F2 =>
      have hF2 : F2 = F := by
        simpa [CacheState.get_cached_data, hl] using hcache
      subst hF2
      show (CacheState.update_cache s db experiment_id none).get_cached_data experiment_id = _
      unfold CacheState.update_cache
      rw [hfetch]
      simp [hl, CacheState.get_cached_data, lookup_set_self]
  · intro x
    rw [List.count_append, Nat.two_mul]

/-- Claim C10 witness: one cached row appears twice after the completion
fetch. -/
theorem completed_experiment_duplicates_witness :
    (CacheState.handle_completed_experiment ⟨[(1, [(relSeconds 1000000 0, 5)])], none, none⟩
        ⟨[⟨1, "a", 0, none, false⟩], [⟨1, 5, 1000000⟩], 2, none, none⟩ 1).get_cached_data 1
      = [(relSeconds 1000000 0, 5), (relSeconds 1000000 0, 5)] ∧
    ([(relSeconds 1000000 0, (5 : Rat)), (relSeconds 1000000 0, 5)].count
        (relSeconds 1000000 0, (5 : Rat))
      = 2 * [(relSeconds 1000000 0, (5 : Rat))].count (relSeconds 1000000 0, (5 : Rat))) := by
  have h := completed_experiment_duplicates ⟨[(1, [(relSeconds 1000000 0, 5)])], none, none⟩
    ⟨[⟨1, "a", 0, none, false⟩], [⟨1, 5, 1000000⟩], 2, none, none⟩ 1
    [(relSeconds 1000000 0, 5)] rfl rfl
  exact ⟨h.1, h.2 (relSeconds 1000000 0, 5)⟩

theorem find?_eraseP_of_nodup (l : List Experiment) (i : Nat)
    (hnodup : (l.map (fun e => e.id)).Nodup) :
    (l.eraseP (fun e => e.id == i)).find? (fun e => e.id == i) = none := by
  induction l with
  | nil => rfl
  | cons a rest ih =>
    rcases List.nodup_cons.mp hnodup with ⟨hnotmem, hrest⟩
    by_cases ha : a.id = i
    · rw [List.eraseP_cons_of_pos (by simp [ha])]
      rw [List.find?_eq_none]
      intro x hx
      simp only [beq_iff_eq]
      intro hxi
      exact hnotmem (by
        show a.id ∈ List.map (fun e => e.id) rest
        rw [ha, ← hxi]
        exact List.mem_map_of_mem _ hx)
    · rw [List.eraseP_cons_of_neg (by simp [ha])]
      rw [List.find?_cons_of_neg _ (by simp [ha])]
      exact ih hrest

theorem latest_readings_of_find?_none (db : DbState) (experiment_id : Nat)
    (since : Option Int)
    (h : db.experiments.find? (fun e => e.id == experiment_id) = none) :
    db.latest_readings experiment_id since = none := by
  unfold DbState.latest_readings
  rw [h]

/-- Claim C7 counterexample: deleting a nonexistent experiment id (2) returns
normally with the database unchanged instead of failing with NotFound, and
deleting an existing id (1) leaves its reading rows in the table. -/
theorem delete_experiment_counterexample :
    DbState.delete_experiment ⟨[⟨1, "a", 0, some 10, false⟩], [⟨1, 5, 3⟩], 2, none, none⟩ 2
      = .ok ⟨[⟨1, "a", 0, some 10, false⟩], [⟨1, 5, 3⟩], 2, none, none⟩ ∧
    DbState.delete_experiment ⟨[⟨1, "a", 0, some 10, false⟩], [⟨1, 5, 3⟩], 2, none, none⟩ 2
      ≠ .error .notFound ∧
    (DbState.delete_experiment ⟨[⟨1, "a", 0, some 10, false⟩], [⟨1, 5, 3⟩], 2, none, none⟩
        1).toOption.map (fun d => d.readings) = some [⟨1, 5, 3⟩] := by decide

/-- Claim C7 (amended): delete_experiment on a nonexistent id logs and returns
successfully with the database unchanged (it does not fail with NotFound); on
an existing id it removes only the Experiment row, leaving the readings in
place, after which latest_readings for that id returns None (NotFound) for any
since bound and get_experiments no longer lists the id. -/
theorem delete_experiment_amended (db : DbState) (experiment_id : Nat)
    (hnodup : (db.experiments.map (fun e => e.id)).Nodup) :
    (db.experiments.find? (fun e => e.id == experiment_id) = none →
      db.delete_experiment experiment_id = .ok db) ∧
    (∀ e, db.experiments.find? (fun e => e.id == experiment_id) = some e →
      ∃ db2, db.delete_experiment experiment_id = .ok db2 ∧
        db2.readings = db.readings ∧
        db2.experiments = db.experiments.eraseP (fun x => x.id == experiment_id) ∧
        (∀ since, db2.latest_readings experiment_id since = none) ∧
        (∀ p ∈ db2.get_experiments, p.1 ≠ experiment_id)) := by
  constructor
  · intro h
    simp [DbState.delete_experiment, h]
  · intro e he
    refine ⟨{ db with
        experiments := db.experiments.eraseP (fun x => x.id == experiment_id) },
      ?_, rfl, rfl, ?_, ?_⟩
    · simp [DbState.delete_experiment, he]
    · intro since
      apply latest_readings_of_find?_none
      exact find?_eraseP_of_nodup db.experiments experiment_id hnodup
    · intro p hp
      rcases List.mem_map.mp hp with ⟨x, hx, hpx⟩
      have hxid : x.id ≠ experiment_id := by
        have hnone := find?_eraseP_of_nodup db.experiments experiment_id hnodup
        have := List.find?_eq_none.mp hnone x hx
        simpa using this
      rw [← hpx]
      exact hxid

/-- Claim C7 witness: both amended branches evaluated on a concrete database
with one stopped experiment and one reading. -/
theorem delete_experiment_amended_witness :
    DbState.delete_experiment ⟨[⟨1, "a", 0, some 10, false⟩], [⟨1, 5, 3⟩], 2, none, none⟩ 2
      = .ok ⟨[⟨1, "a", 0, some 10, false⟩], [⟨1, 5, 3⟩], 2, none, none⟩ ∧
    (∃ db2,
      DbState.delete_experiment ⟨[⟨1, "a", 0, some 10, false⟩], [⟨1, 5, 3⟩], 2, none, none⟩ 1
        = .ok db2 ∧
      db2.readings = [⟨1, 5, 3⟩] ∧
      db2.experiments = List.eraseP (fun x => x.id == 1) [⟨1, "a", 0, some 10, false⟩] ∧
      (∀ since, db2.latest_readings 1 since = none) ∧
      (∀ p ∈ db2.get_experiments, p.1 ≠ 1)) :=
  ⟨(delete_experiment_amended ⟨[⟨1, "a", 0, some 10, false⟩], [⟨1, 5, 3⟩], 2, none, none⟩ 2
      (by decide)).1 rfl,
   (delete_experiment_amended ⟨[⟨1, "a", 0, some 10, false⟩], [⟨1, 5, 3⟩], 2, none, none⟩ 1
      (by decide)).2 ⟨1, "a", 0, some 10, false⟩ rfl⟩

theorem invDb_init : InvDb DbState.init := by
  constructor
  · intro _; rfl
  · intro i hi; exact absurd hi (by simp [DbState.init])

theorem invDb_runSS (db : DbState) (op : SSOp) (h : InvDb db) : InvDb (runSS db op) := by
  cases op with
  | start name now =>
    cases hid : db.experiment_id with
    | some i =>
      simpa [runSS, DbState.start_experiment, hid] using h
    | none =>
      have hopen : openExps db = [] := h.1 hid
      simp only [runSS, DbState.start_experiment, hid]
      have hfilter : (db.experiments ++
            [(⟨db.nextId, name, now, none, false⟩ : Experiment)]).filter
            (fun e => e.«end».isNone)
          = [(⟨db.nextId, name, now, none, false⟩ : Experiment)] := by
        rw [List.filter_append]
        rw [show db.experiments.filter (fun e => e.«end».isNone) = [] from hopen]
        rfl
      constructor
      · intro hc
        exact absurd hc (by simp)
      · intro j hj
        have hjid : db.nextId = j := by simpa using hj
        subst hjid
        constructor
        · show ((db.experiments ++
              [(⟨db.nextId, name, now, none, false⟩ : Experiment)]).filter
              (fun e => e.«end».isNone)).length ≤ 1
          rw [hfilter]
          simp
        · intro e he
          have he2 : e ∈ (db.experiments ++
              [(⟨db.nextId, name, now, none, false⟩ : Experiment)]).filter
              (fun x => x.«end».isNone) := he
          rw [hfilter] at he2
          have he3 : e = ⟨db.nextId, name, now, none, false⟩ := by simpa using he2
          rw [he3]
  | stop now =>
    cases hid : db.experiment_id with
    | none =>
      simpa [runSS, DbState.stop_experiment, hid] using h
    | some i =>
      simp only [runSS, DbState.stop_experiment, hid]
      cases hf : db.experiments.find? (fun e => e.id == i) with
      | none =>
        constructor
        · intro hc
          have hc2 : (some i : Option Nat) = none := hc
          exact absurd hc2 (by simp)
        · intro j hj
          have hj2 : (some i : Option Nat) = some j := hj
          have hji : i = j := Option.some.inj hj2
          subst hji
          exact h.2 i hid
      | some e0 =>
        constructor
        · intro _
          show (db.experiments.map
              (fun e => if e.id == i then { e with «end» := some now } else e)).filter
              (fun e => e.«end».isNone) = []
          rw [List.filter_eq_nil_iff]
          intro x hx
          rcases List.mem_map.mp hx with ⟨y, hy, hyx⟩
          by_cases hyi : y.id = i
          · rw [← hyx]
            simp [hyi]
          · rw [← hyx]
            simp only [beq_iff_eq, hyi, if_false]
            intro hyopen
            have hymem : y ∈ openExps db := by
              rw [openExps, List.mem_filter]
              exact ⟨hy, hyopen⟩
            exact hyi ((h.2 i hid).2 y hymem)
        · intro j hj
          exact absurd hj (by simp)

theorem invDb_runSSList (db : DbState) (ops : List SSOp) (h : InvDb db) :
    InvDb (runSSList db ops) := by
  induction ops generalizing db with
  | nil => exact h
  | cons op rest ih => exact ih (runSS db op) (invDb_runSS db op h)

theorem invDb_atMostOne (db : DbState) (h : InvDb db) : (openExps db).length ≤ 1 := by
  cases hid : db.experiment_id with
  | none => rw [h.1 hid]; simp
  | some i => exact (h.2 i hid).1

/-- Claim C2: along every sequence of start_experiment / stop_experiment calls
from a fresh store, at most one Experiment row has end = null (every reachable
state is itself the endpoint of some sequence, so this covers every time
point), and whenever an open experiment exists, a further start_experiment call
fails with AlreadyRunning and leaves the state completely unchanged. -/
theorem single_active_experiment (ops : List SSOp) :
    ((runSSList DbState.init ops).experiments.filter
        (fun e => e.«end».isNone)).length ≤ 1 ∧
    (∀ name now, (∃ e ∈ (runSSList DbState.init ops).experiments, e.«end» = none) →
      (runSSList DbState.init ops).start_experiment name now
          = .error .alreadyRunning ∧
        runSS (runSSList DbState.init ops) (.start name now)
          = runSSList DbState.init ops) := by
  have hinv := invDb_runSSList DbState.init ops invDb_init
  constructor
  · exact invDb_atMostOne _ hinv
  · intro name now hex
    rcases hex with ⟨e, he, hopen⟩
    have hmem : e ∈ openExps (runSSList DbState.init ops) := by
      rw [openExps, List.mem_filter]
      exact ⟨he, by simp [hopen]⟩
    cases hid : (runSSList DbState.init ops).experiment_id with
    | none =>
      have hnil := hinv.1 hid
      rw [hnil] at hmem
      exact absurd hmem (by simp)
    | some i =>
      constructor
      · simp [DbState.start_experiment, hid]
      · simp [runSS, DbState.start_experiment, hid]

/-- Claim C2 witness: after one start, a second start fails with AlreadyRunning
and changes nothing. -/
theorem single_active_experiment_witness :
    (((runSSList DbState.init [SSOp.start "a" 0]).experiments.filter
        (fun e => e.«end».isNone)).length ≤ 1) ∧
    ((runSSList DbState.init [SSOp.start "a" 0]).start_experiment "b" 5
        = .error .alreadyRunning ∧
      runSS (runSSList DbState.init [SSOp.start "a" 0]) (.start "b" 5)
        = runSSList DbState.init [SSOp.start "a" 0]) :=
  ⟨(single_active_experiment [SSOp.start "a" 0]).1,
   (single_active_experiment [SSOp.start "a" 0]).2 "b" 5
     ⟨⟨1, "a", 0, none, false⟩, by decide, rfl⟩⟩

theorem writeAll_ok (writes : List (Int × Rat)) (db : DbState) (i : Nat)
    (hi : db.experiment_id = some i)
    (hnodup : (writes.map Prod.fst).Nodup)
    (hfresh : ∀ w ∈ writes, ∀ r ∈ db.readings, w.1 ≠ r.ts) :
    writeAll db writes
      = .ok { db with
          readings := db.readings ++ writes.map (fun w => ⟨i, w.2, w.1⟩) } := by
  induction writes generalizing db with
  | nil => simp [writeAll]
  | cons w rest ih =>
    rcases List.nodup_cons.mp hnodup with ⟨hnotmem, hrest⟩
    have hwfresh : ∀ r ∈ db.readings, r.ts ≠ w.1 := by
      intro r hr hts
      exact hfresh w (by simp) r hr hts.symm
    have hwr := write_reading_ok_of db i w.2 w.1 hi hwfresh
    have hfresh2 : ∀ w2 ∈ rest,
        ∀ r ∈ ({ db with readings := db.readings ++ [⟨i, w.2, w.1⟩] } : DbState).readings,
        w2.1 ≠ r.ts := by
      intro w2 hw2 r hr
      rcases List.mem_append.mp hr with hr1 | hr2
      · exact hfresh w2 (by simp [hw2]) r hr1
      · have hr3 : r = ⟨i, w.2, w.1⟩ := by simpa using hr2
        rw [hr3]
        intro hts
        have hts2 : w2.1 = w.1 := hts
        exact hnotmem (by rw [← hts2]; exact List.mem_map_of_mem _ hw2)
    have ih2 := ih { db with readings := db.readings ++ [⟨i, w.2, w.1⟩] } hi hrest hfresh2
    show (match db.write_reading (some w.2) w.1 with
      | .ok db2 => writeAll db2 rest
      | .error er => .error er) = _
    simp only [hwr]
    rw [ih2]
    simp [List.append_assoc]

theorem update_cache_from_empty (s : CacheState) (db : DbState) (experiment_id : Nat)
    (since : Option Int) (hcache : s.get_cached_data experiment_id = []) :
    (s.update_cache db experiment_id since).get_cached_data experiment_id
      = (db.latest_readings experiment_id since).getD [] := by
  cases hl : lookupFrame s.cached_data experiment_id with
  | none =>
    unfold CacheState.update_cache
    rw [hl]
    cases hf : db.latest_readings experiment_id since with
    | none => simp [CacheState.get_cached_data, lookup_set_self, empty_cache]
    | some new_data => simp [CacheState.get_cached_data, lookup_set_self, empty_cache]
  | some F =>
    have hF : F = [] := by simpa [CacheState.get_cached_data, hl, empty_cache] using hcache
    subst hF
    unfold CacheState.update_cache
    rw [hl]
    cases hf : db.latest_readings experiment_id since with
    | none => simp [CacheState.get_cached_data, hl, empty_cache]
    | some new_data => simp [CacheState.get_cached_data, hl, empty_cache, lookup_set_self]

theorem latest_readings_eq (db : DbState) (experiment_id : Nat) (since : Option Int)
    (e : Experiment)
    (hfind : db.experiments.find? (fun x => x.id == experiment_id) = some e) :
    db.latest_readings experiment_id since
      = (if (db.readings.filter
            (fun r => r.experiment == experiment_id && matchesSince since r.ts)).isEmpty
         then none
         else some ((db.readings.filter
            (fun r => r.experiment == experiment_id && matchesSince since r.ts)).map
          (fun r => (relSeconds r.ts e.start, r.value)))) := by
  unfold DbState.latest_readings
  rw [hfind]

/-- Claim C1: the round-trip law.  Starting from an empty cache entry for an
existing experiment whose store holds no prior readings, writing N readings
through write_reading and then running handle_completed_experiment yields a
cached frame holding exactly those N rows in write order, relativized to the
experiment start: no loss and no duplication. -/
theorem pipeline_round_trip (db : DbState) (s : CacheState) (experiment_id : Nat)
    (e : Experiment) (writes : List (Int × Rat)) (db2 : DbState)
    (hfind : db.experiments.find? (fun x => x.id == experiment_id) = some e)
    (hactive : db.experiment_id = some experiment_id)
    (hnoprior : ∀ r ∈ db.readings, r.experiment ≠ experiment_id)
    (hnodup : (writes.map Prod.fst).Nodup)
    (hfreshw : ∀ w ∈ writes, ∀ r ∈ db.readings, w.1 ≠ r.ts)
    (hcache : s.get_cached_data experiment_id = [])
    (hw : writeAll db writes = .ok db2) :
    (s.handle_completed_experiment db2 experiment_id).get_cached_data experiment_id
      = writes.map (fun w => (relSeconds w.1 e.start, w.2)) := by
  have hwa := writeAll_ok writes db experiment_id hactive hnodup hfreshw
  rw [hwa] at hw
  have hdb2 : db2 = { db with readings := db.readings ++ writes.map (fun w => ⟨experiment_id, w.2, w.1⟩) } :=
    (Except.ok.inj hw).symm
  subst hdb2
  unfold CacheState.handle_completed_experiment
  rw [update_cache_from_empty s _ experiment_id none hcache]
  have hfind2 : ({ db with readings := db.readings ++ writes.map (fun w => ⟨experiment_id, w.2, w.1⟩) } : DbState).experiments.find? (fun x => x.id == experiment_id) = some e := hfind
  rw [latest_readings_eq _ experiment_id none e hfind2]
  have hsel : ({ db with readings := db.readings ++ writes.map (fun w => ⟨experiment_id, w.2, w.1⟩) } : DbState).readings.filter (fun r => r.experiment == experiment_id && matchesSince none r.ts) = writes.map (fun w => (⟨experiment_id, w.2, w.1⟩ : PmtReading)) := by
    show (db.readings ++ writes.map (fun w => (⟨experiment_id, w.2, w.1⟩ : PmtReading))).filter (fun r => r.experiment == experiment_id && matchesSince none r.ts) = _
    rw [List.filter_append]
    have h1 : db.readings.filter
        (fun r => r.experiment == experiment_id && matchesSince none r.ts) = [] := by
      rw [List.filter_eq_nil_iff]
      intro r hr
      simp [matchesSince, hnoprior r hr]
    have h2 : (writes.map (fun w => (⟨experiment_id, w.2, w.1⟩ : PmtReading))).filter (fun r => r.experiment == experiment_id && matchesSince none r.ts) = writes.map (fun w => (⟨experiment_id, w.2, w.1⟩ : PmtReading)) := by
      rw [List.filter_eq_self]
      intro r hr
      rcases List.mem_map.mp hr with ⟨w2, hw2, hrw⟩
      rw [← hrw]
      simp [matchesSince]
    rw [h1, h2, List.nil_append]
  rw [hsel]
  cases writes with
  | nil => simp
  | cons w rest =>
    rw [if_neg (by simp)]
    simp [List.map_map, Function.comp]

/-- Claim C1 witness: two writes against a fresh experiment round-trip into a
two-row cached frame. -/
theorem pipeline_round_trip_witness :
    (CacheState.handle_completed_experiment CacheState.init
        ⟨[⟨1, "a", 0, none, false⟩], [⟨1, 5, 1000000⟩, ⟨1, 7, 3000000⟩], 2, some 1, some 0⟩
        1).get_cached_data 1
      = [(relSeconds 1000000 0, 5), (relSeconds 3000000 0, 7)] := by
  have h := pipeline_round_trip
    ⟨[⟨1, "a", 0, none, false⟩], [], 2, some 1, some 0⟩ CacheState.init 1
    ⟨1, "a", 0, none, false⟩ [(1000000, 5), (3000000, 7)]
    ⟨[⟨1, "a", 0, none, false⟩], [⟨1, 5, 1000000⟩, ⟨1, 7, 3000000⟩], 2, some 1, some 0⟩
    rfl rfl (by simp) (by decide) (by simp) rfl (by decide)
  exact h
